import Mathlib

/-!
Verification of the haptic-device protocol layer and session value engine.

The definitions below are shallow embeddings of the JavaScript sources:
number arithmetic is modelled on the rationals, Math.round as
fun q => floor (q + 1/2), Math.floor as the integer floor, and storage
into a Uint8Array as reduction modulo 256.  Stateful protocol objects
become explicit state-passing functions.
-/

/-- JavaScript Math.round: floor (q + 1/2), rounding half-up. -/
def jsRound (q : ℚ) : ℤ := ⌊q + 1/2⌋

/-- JavaScript truncation toward zero (ToIntegerOrInfinity). -/
def jsTrunc (q : ℚ) : ℤ := if 0 ≤ q then ⌊q⌋ else ⌈q⌉

/-- Storing an integer into a Uint8Array keeps its value modulo 256. -/
def byteWrap (n : ℤ) : ℤ := n % 256

/-- Storing an arbitrary JS number in a Uint8Array truncates then wraps. -/
def jsToUint8 (q : ℚ) : ℤ := byteWrap (jsTrunc q)

namespace lovense

def maxIntensity : ℤ := 20

def level (intensity : ℚ) : ℤ := jsRound (intensity * maxIntensity)

def buildCommand (intensity : ℚ) : String :=
  "Vibrate:" ++ toString (level intensity) ++ ";"

def buildStopCommand : String := "Vibrate:0;"

end lovense

namespace satisfyer

def maxIntensity : ℤ := 100

def level (intensity : ℚ) : ℤ := jsRound (intensity * maxIntensity)

def buildCommand (intensity : ℚ) (motorCount : ℕ) : List ℤ :=
  let lv := byteWrap (level intensity)
  (List.replicate motorCount [lv, lv, lv, lv]).flatten

def buildStopCommand (motorCount : ℕ) : List ℤ :=
  buildCommand 0 motorCount

end satisfyer

namespace wevibe

def maxIntensity : ℤ := 15

def level (intensity : ℚ) : ℤ := jsRound (intensity * maxIntensity)

def buildCommand (intensity : ℚ) (intensityExt : Option ℚ) : List ℤ :=
  let intLevel := level intensity
  let extLevel := match intensityExt with
    | some e => level e
    | none => intLevel
  if intLevel = 0 ∧ extLevel = 0 then
    [0x0f, 0x00, 0x00, 0x00, 0x00, 0x00, 0x00, 0x00]
  else
    let combinedSpeed := byteWrap (extLevel + intLevel * 16)
    [0x0f, 0x03, 0x00, combinedSpeed, 0x00, 0x03, 0x00, 0x00]

def buildStopCommand : List ℤ :=
  [0x0f, 0x00, 0x00, 0x00, 0x00, 0x00, 0x00, 0x00]

end wevibe

namespace aneros

def maxIntensity : ℤ := 255

def level (intensity : ℚ) : ℤ := jsRound (intensity * maxIntensity)

def buildCommand (intensity : ℚ) (motorIndex : ℤ) : List ℤ :=
  [byteWrap (0xF1 + motorIndex), byteWrap (level intensity)]

def buildStopCommand (motorIndex : ℤ) : List ℤ :=
  [byteWrap (0xF1 + motorIndex), 0x00]

end aneros

namespace kiiroo

def maxIntensity : ℤ := 255

def level (intensity : ℚ) : ℤ := jsRound (intensity * maxIntensity)

def buildCommand (intensity : ℚ) (motorCount : ℕ) : List ℤ :=
  List.replicate motorCount (byteWrap (level intensity))

def buildStopCommand (motorCount : ℕ) : List ℤ :=
  List.replicate motorCount 0

end kiiroo

namespace svakom

def maxIntensity : ℤ := 255

def level (intensity : ℚ) : ℤ := jsRound (intensity * maxIntensity)

def buildCommand (intensity : ℚ) : List ℤ :=
  let lv := level intensity
  let multiplier : ℤ := if lv = 0 then 0x00 else 0x01
  [0x55, 0x04, 0x03, 0x00, multiplier, byteWrap lv]

def buildStopCommand : List ℤ :=
  [0x55, 0x04, 0x03, 0x00, 0x00, 0x00]

end svakom

namespace lelo

def maxIntensity : ℤ := 255

def level (intensity : ℚ) : ℤ := jsRound (intensity * maxIntensity)

def buildCommand (intensity : ℚ) (intensity2 : Option ℚ) : List ℤ :=
  let level1 := level intensity
  let level2 := match intensity2 with
    | some i2 => level i2
    | none => level1
  [0x01, byteWrap level1, byteWrap level2]

def buildStopCommand : List ℤ := [0x01, 0x00, 0x00]

end lelo

namespace magicmotion

def maxIntensity : ℤ := 255

def level (intensity : ℚ) : ℤ := jsRound (intensity * maxIntensity)

def buildCommand (intensity : ℚ) : List ℤ :=
  let lv := byteWrap (level intensity)
  [0x0b, 0xff, 0x04, 0x0a, 0x32, 0x32, 0x00, 0x04, 0x08, lv, 0x64, 0x00, 0x04, 0x08, lv]

def buildStopCommand : List ℤ := buildCommand 0

end magicmotion

namespace mysteryvibe

def maxIntensity : ℤ := 255

def level (intensity : ℚ) : ℤ := jsRound (intensity * maxIntensity)

def buildCommand (intensity : ℚ) (motorCount : ℕ) : List ℤ :=
  List.replicate motorCount (byteWrap (level intensity))

def buildStopCommand (motorCount : ℕ) : List ℤ :=
  List.replicate motorCount 0

end mysteryvibe

namespace coyote

/-- Encode frequency (10-1000 Hz) to the protocol value (0-240):
clamp, then three linear segments with Math.round. -/
def encodeFrequency (hz0 : ℚ) : ℚ :=
  let hz := min 1000 (max 10 hz0)
  if hz ≤ 100 then hz
  else if hz ≤ 600 then (jsRound ((hz - 100) / 5) : ℚ) + 100
  else (jsRound ((hz - 600) / 10) : ℚ) + 200

/-- Reverse mapping, from the protocol documentation (COYOTE-PROTOCOL.md). -/
def decodeFrequency (v : ℚ) : ℚ :=
  if v ≤ 100 then v
  else if v ≤ 200 then (v - 100) * 5 + 100
  else (v - 200) * 10 + 600

/-- Options for the 20-byte B0 control command, with the source defaults. -/
structure B0Options where
  sequence : ℕ := 0
  modeA : ℕ := 3
  modeB : ℕ := 3
  intensityA : ℤ := 0
  intensityB : ℤ := 0
  waveFreqA : List ℚ := [100, 100, 100, 100]
  waveIntA : List ℚ := [50, 50, 50, 50]
  waveFreqB : List ℚ := [100, 100, 100, 100]
  waveIntB : List ℚ := [50, 50, 50, 50]

/-- Byte written at position 4+i / 12+i: encoded frequency of sample i
(a missing array entry leaves the Uint8Array slot at 0). -/
def freqByte (l : List ℚ) (i : ℕ) : ℤ :=
  match l.get? i with
  | some hz => jsToUint8 (encodeFrequency hz)
  | none => 0

/-- Byte written at position 8+i / 16+i: clamped waveform intensity of sample i. -/
def waveIntByte (l : List ℚ) (i : ℕ) : ℤ :=
  match l.get? i with
  | some v => jsToUint8 (min 100 (max 0 v))
  | none => 0

/-- The 20-byte B0 main control command. -/
def buildB0Command (o : B0Options) : List ℤ :=
  [ 0xB0,
    ((((o.sequence <<< 4) ||| (o.modeB <<< 2)) ||| o.modeA : ℕ) % 256 : ℤ),
    byteWrap (min 200 (max 0 o.intensityA)),
    byteWrap (min 200 (max 0 o.intensityB)),
    freqByte o.waveFreqA 0, freqByte o.waveFreqA 1, freqByte o.waveFreqA 2, freqByte o.waveFreqA 3,
    waveIntByte o.waveIntA 0, waveIntByte o.waveIntA 1, waveIntByte o.waveIntA 2, waveIntByte o.waveIntA 3,
    freqByte o.waveFreqB 0, freqByte o.waveFreqB 1, freqByte o.waveFreqB 2, freqByte o.waveFreqB 3,
    waveIntByte o.waveIntB 0, waveIntByte o.waveIntB 1, waveIntByte o.waveIntB 2, waveIntByte o.waveIntB 3 ]

def maxIntensity : ℤ := 200

/-- A stored waveform: 4 frequency samples and 4 intensity samples. -/
structure Waveform where
  freq : List ℚ
  intensity : List ℚ
deriving DecidableEq

/-- The default waveform (100 Hz steady). -/
def defaultWaveform : Waveform := { freq := [100, 100, 100, 100], intensity := [50, 50, 50, 50] }

/-- Mutable dual-channel state held by the coyote protocol object. -/
structure CoyoteState where
  intensityA : ℤ
  intensityB : ℤ
  waveformA : Option Waveform
  waveformB : Option Waveform
deriving DecidableEq

/-- State after init / connect: zero intensities, no stored waveforms. -/
def initState : CoyoteState :=
  { intensityA := 0, intensityB := 0, waveformA := none, waveformB := none }

/-- Compose the B0 options from the current channel state
(waveformX?.freq || defaultWaveform.freq). -/
def stateOptions (st : CoyoteState) : B0Options :=
  { intensityA := st.intensityA,
    intensityB := st.intensityB,
    waveFreqA := (match st.waveformA with | some w => w.freq | none => defaultWaveform.freq),
    waveIntA := (match st.waveformA with | some w => w.intensity | none => defaultWaveform.intensity),
    waveFreqB := (match st.waveformB with | some w => w.freq | none => defaultWaveform.freq),
    waveIntB := (match st.waveformB with | some w => w.intensity | none => defaultWaveform.intensity) }

/-- coyote.buildCommand: update the addressed channel, build from full state. -/
def buildCommand (intensity : ℚ) (motorIndex : ℕ) (st : CoyoteState) :
    CoyoteState × List ℤ :=
  let level := jsRound (intensity * maxIntensity)
  let st := if motorIndex = 0 then { st with intensityA := level }
            else { st with intensityB := level }
  (st, buildB0Command (stateOptions st))

/-- Options accepted by coyote.buildFullCommand (undefined fields leave state). -/
structure FullOptions where
  intensityA : Option ℤ := none
  intensityB : Option ℤ := none
  waveformA : Option Waveform := none
  waveformB : Option Waveform := none

/-- coyote.buildFullCommand: merge the given options into state, build frame. -/
def buildFullCommand (o : FullOptions) (st : CoyoteState) : CoyoteState × List ℤ :=
  let st := { st with
    intensityA := (match o.intensityA with | some a => a | none => st.intensityA),
    intensityB := (match o.intensityB with | some b => b | none => st.intensityB),
    waveformA := (match o.waveformA with | some w => some w | none => st.waveformA),
    waveformB := (match o.waveformB with | some w => some w | none => st.waveformB) }
  (st, buildB0Command (stateOptions st))

/-- coyote.buildStopCommand: zero both channel intensities, emit a frame built
from zero intensities and the B0 defaults (stored waveforms are not consulted
and not cleared). -/
def buildStopCommand (st : CoyoteState) : CoyoteState × List ℤ :=
  let st := { st with intensityA := 0, intensityB := 0 }
  (st, buildB0Command { intensityA := 0, intensityB := 0 })

end coyote

namespace coyoteV2

/-- Encode V2 power levels: clamp each channel to 0-2047 and bit-pack
A into bits 11-21 and B into bits 0-10 of three bytes. -/
def encodeV2Power (a0 b0 : ℤ) : List ℤ :=
  let a := min 2047 (max 0 a0)
  let b := min 2047 (max 0 b0)
  let an := a.toNat
  let bn := b.toNat
  [ ((bn &&& 0xFF : ℕ) : ℤ),
    ((((bn >>> 8) &&& 0x07) ||| ((an &&& 0x1F) <<< 3) : ℕ) : ℤ),
    (((an >>> 5) &&& 0x3F : ℕ) : ℤ) ]

/-- Encode V2 waveform: X pulses (0-31), Y interval (0-1023), Z width (0-31). -/
def encodeV2Wave (x0 y0 z0 : ℤ) : List ℤ :=
  let x := min 31 (max 0 x0)
  let y := min 1023 (max 0 y0)
  let z := min 31 (max 0 z0)
  let xn := x.toNat
  let yn := y.toNat
  let zn := z.toNat
  [ (((xn &&& 0x1F) ||| ((yn &&& 0x07) <<< 5) : ℕ) : ℤ),
    (((yn >>> 3) &&& 0x7F : ℕ) : ℤ),
    ((zn &&& 0x1F : ℕ) : ℤ) ]

def maxIntensity : ℤ := 2047

/-- Intensity state held by the V2 wrapper (v2State). -/
structure V2State where
  intensityA : ℤ
  intensityB : ℤ
deriving DecidableEq

/-- v2Protocol.buildCommand: update the addressed channel, emit a power frame. -/
def buildCommand (intensity : ℚ) (motorIndex : ℕ) (st : V2State) :
    V2State × List ℤ :=
  let level := jsRound (intensity * 1024)
  let st := if motorIndex = 0 then { st with intensityA := level }
            else { st with intensityB := level }
  (st, encodeV2Power st.intensityA st.intensityB)

/-- v2Protocol.buildStopCommand: zero both channels, emit the zero frame. -/
def buildStopCommand (_st : V2State) : V2State × List ℤ :=
  ({ intensityA := 0, intensityB := 0 }, encodeV2Power 0 0)

/-- The single-slot mutual-exclusion gate around v2Protocol.sendCommand.
sending mirrors v2Sending, pending mirrors v2Pending, inFlight lists the
dispatched but uncompleted writes (the source can only ever have 0 or 1),
and writes lists the completed transmissions, each recorded by its
requested intensity. -/
structure SendState where
  sending : Bool
  pending : Option ℚ
  inFlight : List ℚ
  writes : List ℚ
deriving DecidableEq

/-- Quiescent gate: nothing sending, nothing pending, nothing written. -/
def sendInit : SendState :=
  { sending := false, pending := none, inFlight := [], writes := [] }

/-- Events at the JS suspension points: a call to sendCommand(intensity),
or completion of the in-flight BLE write (the finally block). -/
inductive SendEv where
  | send (intensity : ℚ)
  | complete
deriving DecidableEq

/-- One transition of the V2 send gate.  A send while v2Sending stores only
the intensity as the single pending value; otherwise it takes the lock and
dispatches.  Completion records the transmitted value, releases the lock,
and immediately re-dispatches any pending value. -/
def sendStep (s : SendState) (e : SendEv) : SendState :=
  match e with
  | .send i =>
      if s.sending then { s with pending := some i }
      else { s with sending := true, inFlight := s.inFlight ++ [i] }
  | .complete =>
      match s.inFlight with
      | [] => s
      | i :: rest =>
          let s := { s with writes := s.writes ++ [i], inFlight := rest, sending := false }
          match s.pending with
          | none => s
          | some p => { s with pending := none, sending := true, inFlight := s.inFlight ++ [p] }

/-- Run a trace of events from the quiescent state. -/
def sendRun (evs : List SendEv) : SendState :=
  evs.foldl sendStep sendInit

/-- The most recently requested intensity of a trace. -/
def lastRequested (evs : List SendEv) : Option ℚ :=
  evs.foldl (fun acc e => match e with | .send i => some i | .complete => acc) none

/-- Gate invariant tying a reachable send state to the most recently
requested intensity lr: the lock counts the in-flight writes, a quiescent
gate has no pending value and has transmitted lr last, and a busy gate
either holds lr pending or is currently writing it. -/
def sendInv (s : SendState) (lr : Option ℚ) : Prop :=
  s.inFlight.length = (if s.sending then 1 else 0) ∧
  (s.sending = false → s.pending = none ∧ s.writes.getLast? = lr) ∧
  (s.sending = true →
    (∀ p, s.pending = some p → lr = some p) ∧
    (s.pending = none → ∃ a, s.inFlight = [a] ∧ lr = some a))

end coyoteV2

namespace registry

/-- Lowercasing of a string, character by character (String.toLowerCase). -/
def strLower (s : String) : String := String.mk (s.data.map Char.toLower)

/-- Anchored name pattern: every namePatterns entry in the registry is a
regex of the form caret-prefix, optionally case-insensitive. -/
structure Pat where
  text : String
  ci : Bool
deriving DecidableEq

/-- Case-sensitive anchored pattern. -/
def cs (t : String) : Pat := { text := t, ci := false }

/-- Case-insensitive anchored pattern (the /i flag). -/
def ciPat (t : String) : Pat := { text := t, ci := true }

/-- pattern.test(deviceName) for an anchored prefix pattern. -/
def patTest (p : Pat) (name : String) : Bool :=
  if p.ci then List.isPrefixOf (strLower p.text).data (strLower name).data
  else List.isPrefixOf p.text.data name.data

/-- One entry of the PROTOCOLS registry: id, name patterns, service UUIDs. -/
structure ProtocolDef where
  id : String
  namePatterns : List Pat
  serviceUUIDs : List String
deriving DecidableEq

/-- The PROTOCOLS list, in source (market-share) order. -/
def PROTOCOLS : List ProtocolDef :=
  [ { id := "satisfyer",
      namePatterns := [cs "SF", ciPat "Satisfyer", ciPat "SAT"],
      serviceUUIDs := ["0000fff0-0000-1000-8000-00805f9b34fb"] },
    { id := "lovense",
      namePatterns := [cs "LVS-", cs "Lush", cs "Hush", cs "Edge", cs "Osci", cs "Domi",
        cs "Nora", cs "Max", cs "Ambi", cs "Ferri", cs "Diamo", cs "Dolce", cs "Exomoon",
        cs "Tenera", cs "Flexer", cs "Gravity", cs "Gemini", cs "Lapis", ciPat "Solace"],
      serviceUUIDs := ["50300001-0024-4bd4-bbd5-a6920e4c5653",
        "53300001-0023-4bd4-bbd5-a6920e4c5653", "57300001-0023-4bd4-bbd5-a6920e4c5653",
        "5a300001-0023-4bd4-bbd5-a6920e4c5653", "5a300001-0024-4bd4-bbd5-a6920e4c5653",
        "6e400001-b5a3-f393-e0a9-e50e24dcca9e"] },
    { id := "wevibe",
      namePatterns := [cs "Cougar", cs "Ditto", cs "Gala", cs "Jive", cs "Match", cs "Melt",
        cs "Moxie", cs "Nova", cs "Pivot", cs "Rave", cs "Sync", cs "Vector", cs "Verge",
        cs "Wish", ciPat "We-Vibe"],
      serviceUUIDs := ["f000bb03-0451-4000-b000-000000000000"] },
    { id := "lelo",
      namePatterns := [cs "F1s", ciPat "LELO", cs "Sona", cs "Tiani", cs "Hugo", cs "Ida",
        cs "Ina", cs "Lily", cs "Mona", cs "Ora", cs "Sila", ciPat "Soraya"],
      serviceUUIDs := [] },
    { id := "kiiroo",
      namePatterns := [cs "Onyx", cs "Pearl", cs "Fuse", cs "Titan", cs "Cliona",
        ciPat "OhMiBod", ciPat "Kiiroo"],
      serviceUUIDs := [] },
    { id := "svakom",
      namePatterns := [ciPat "Svakom", cs "Emma", cs "Ella", cs "Vicky", cs "Alex", cs "Sam",
        cs "Iker", cs "Tarax", ciPat "Pulse"],
      serviceUUIDs := [] },
    { id := "magicmotion",
      namePatterns := [ciPat "Magic Motion", cs "Kegel", cs "Flamingo", cs "Candy",
        cs "Bunny", ciPat "Eidolon"],
      serviceUUIDs := [] },
    { id := "mysteryvibe",
      namePatterns := [cs "Crescendo", cs "Tenuto", cs "Poco", ciPat "MysteryVibe"],
      serviceUUIDs := [] },
    { id := "aneros",
      namePatterns := [ciPat "Vivi"],
      serviceUUIDs := [] },
    { id := "coyote",
      namePatterns := [ciPat "D-LAB ESTIM", cs "47L"],
      serviceUUIDs := ["0000180c-0000-1000-8000-00805f9b34fb"] } ]

/-- Does the device name match one of the candidate name patterns? -/
def nameMatch (d : ProtocolDef) (deviceName : String) : Bool :=
  d.namePatterns.any (fun p => patTest p deviceName)

/-- Does one of the candidate service UUIDs appear among the device
service UUIDs (both sides lowercased)? -/
def uuidMatch (d : ProtocolDef) (serviceUUIDs : List String) : Bool :=
  !d.serviceUUIDs.isEmpty &&
    d.serviceUUIDs.any (fun u => serviceUUIDs.contains (strLower u))

/-- The per-candidate test of the detection loop body: name patterns are
checked first, then service UUIDs. -/
def defMatches (d : ProtocolDef) (deviceName : String) (serviceUUIDs : List String) : Bool :=
  nameMatch d deviceName || uuidMatch d serviceUUIDs

/-- detectProtocol: lowercase the connected service UUIDs, walk PROTOCOLS
in order, return the first match, and null (none) when nothing matches. -/
def detectProtocol (deviceName : String) (services : List String) : Option ProtocolDef :=
  let serviceUUIDs := services.map strLower
  PROTOCOLS.find? (fun d => defMatches d deviceName serviceUUIDs)

end registry

/-- Substring test on character lists (the JS String.includes). -/
def hasSub (sub : List Char) : List Char → Bool
  | [] => decide (sub = [])
  | c :: t => List.isPrefixOf sub (c :: t) || hasSub sub t

/-- isCoyote: lowercase name starts with one of the e-stim markers or
contains "estim". -/
def isCoyote (deviceName : String) : Bool :=
  let name := (registry.strLower deviceName).data
  List.isPrefixOf "d-lab".data name ||
  List.isPrefixOf "dg-lab".data name ||
  List.isPrefixOf "47l".data name ||
  List.isPrefixOf "coyote".data name ||
  hasSub "estim".data name

/-- The protocol-selection step of the connection manager for an already
connected device: the coyote path for e-stim names, otherwise
detectProtocol(device.name, services) || lovense. -/
def chooseProtocolId (deviceName : String) (services : List String) : String :=
  if isCoyote deviceName then "coyote"
  else match registry.detectProtocol deviceName services with
    | some d => d.id
    | none => "lovense"

/-- The GATT connect retry loop, from the given attempt number (1-based):
a successful attempt breaks out with its attempt number; a failed attempt
is retried, except that failure on attempt 3 rethrows (none). -/
def connectFrom (outcome : ℕ → Bool) (attempt : ℕ) : Option ℕ :=
  if 3 ≤ attempt then (if outcome attempt then some attempt else none)
  else if outcome attempt then some attempt
  else connectFrom outcome (attempt + 1)
termination_by 3 - attempt

/-- The whole retry loop: attempts start at 1. -/
def connectLoop (outcome : ℕ → Bool) : Option ℕ :=
  connectFrom outcome 1

namespace session

/-- A normalized {min, max} sub-range of [0,1] returned by an arc. -/
structure ArcRange where
  lo : ℚ
  hi : ℚ
deriving DecidableEq

/-- The names of the built-in SESSION_ARCS. -/
inductive ArcName where
  | constant | open_up | close_down | open_down | close_up
  | slide_up_wide | slide_up | slide_up_narrow
  | slide_down_wide | slide_down | slide_down_narrow
  | focus_high | focus_low
deriving DecidableEq

/-- The SESSION_ARCS table: each arc maps progress t to a normalized range
(lo is the source field min, hi the source field max). -/
def SESSION_ARCS (a : ArcName) (t : ℚ) : ArcRange :=
  match a with
  | .constant => { lo := 0, hi := 1 }
  | .open_up => { lo := 0, hi := t }
  | .close_down => { lo := 0, hi := 1 - t }
  | .open_down => { lo := 1 - t, hi := 1 }
  | .close_up => { lo := t, hi := 1 }
  | .slide_up_wide => { lo := t * (1/4), hi := 3/4 + t * (1/4) }
  | .slide_up => { lo := t * (1/2), hi := 1/2 + t * (1/2) }
  | .slide_up_narrow => { lo := t * (3/4), hi := 1/4 + t * (3/4) }
  | .slide_down_wide => { lo := 1/4 - t * (1/4), hi := 1 - t * (1/4) }
  | .slide_down => { lo := 1/2 - t * (1/2), hi := 1 - t * (1/2) }
  | .slide_down_narrow => { lo := 3/4 - t * (3/4), hi := 1 - t * (3/4) }
  | .focus_high =>
      let width := 1 - t * (4/5)
      { lo := max 0 (t - width / 2), hi := min 1 (t + width / 2) }
  | .focus_low =>
      let width := 1 - t * (4/5)
      let center := 1 - t
      { lo := max 0 (center - width / 2), hi := min 1 (center + width / 2) }

/-- JS Math.floor(min + Math.random() * (max - min + 1)) with the random
draw r made explicit. -/
def randomInRange (lo hi : ℤ) (r : ℚ) : ℤ :=
  ⌊(lo : ℚ) + r * ((hi : ℚ) - (lo : ℚ) + 1)⌋

/-- JS arr[Math.floor(Math.random() * arr.length)] with the draw explicit;
none models the undefined result of an out-of-range index. -/
def pickRandom (arr : List String) (r : ℚ) : Option String :=
  arr.get? (⌊r * (arr.length : ℚ)⌋).toNat

/-- The patternSwitch settings. -/
structure SwitchSettings where
  minInstances : ℤ
  maxInstances : ℤ
deriving DecidableEq

/-- Per-category session state (the source object field index is the
sample index of the claim). -/
structure CatState where
  patterns : List String
  currentPattern : String
  index : ℕ
  instancesRemaining : ℤ
deriving DecidableEq

/-- advanceCategory: bump the sample index, consume one instance, and when
the count is exhausted and more than one pattern is configured, switch to
a random different pattern, reset the index and redraw the count.  The two
random draws rPick and rDraw are explicit parameters. -/
def advanceCategory (cat : CatState) (sw : SwitchSettings) (rPick rDraw : ℚ) : CatState :=
  let cat := { cat with index := cat.index + 1,
                        instancesRemaining := cat.instancesRemaining - 1 }
  if cat.instancesRemaining ≤ 0 ∧ 1 < cat.patterns.length then
    let otherPatterns := cat.patterns.filter (fun p => p ≠ cat.currentPattern)
    let newPattern :=
      if otherPatterns.length > 0 then
        (pickRandom otherPatterns rPick).getD cat.currentPattern
      else
        (pickRandom cat.patterns rPick).getD cat.currentPattern
    { cat with currentPattern := newPattern, index := 0,
               instancesRemaining := randomInRange sw.minInstances sw.maxInstances rDraw }
  else cat

end session

/-! ## Shared lemmas -/

theorem jsRound_zero : jsRound 0 = 0 := by norm_num [jsRound]

theorem jsRound_unit_mul_bounds (m : ℤ) (hm : 0 ≤ m) (i : ℚ) (h0 : 0 ≤ i) (h1 : i ≤ 1) :
    0 ≤ jsRound (i * (m : ℚ)) ∧ jsRound (i * (m : ℚ)) ≤ m := by
  simp only [jsRound]
  have hmq : (0 : ℚ) ≤ (m : ℚ) := by exact_mod_cast hm
  have hlow : (0 : ℚ) ≤ i * (m : ℚ) := mul_nonneg h0 hmq
  have hup : i * (m : ℚ) ≤ (m : ℚ) := by nlinarith
  constructor
  · have : (0 : ℚ) ≤ i * (m : ℚ) + 1/2 := by linarith
    exact Int.floor_nonneg.mpr this
  · have hx : i * (m : ℚ) + 1/2 < ((m + 1 : ℤ) : ℚ) := by push_cast; linarith
    have := Int.floor_lt.mpr hx
    omega

/-! ## C1: level clamping -/

/-- Claim C1 counterexample: the lovense protocol does not clamp - at the
out-of-range input intensity 1.5 the level encoded into the command bytes
is 30, which exceeds maxIntensity = 20. -/
theorem c1_lovense_no_clamp_counterexample :
    lovense.buildCommand (3/2) = "Vibrate:30;" ∧
    lovense.level (3/2) = 30 ∧
    lovense.maxIntensity = 20 ∧
    ¬ lovense.level (3/2) ≤ lovense.maxIntensity := by
  have h : lovense.level (3/2) = 30 := by
    norm_num [lovense.level, lovense.maxIntensity, jsRound]
  refine ⟨?_, h, rfl, ?_⟩
  · show "Vibrate:" ++ toString (lovense.level (3/2)) ++ ";" = "Vibrate:30;"
    rw [h]
    rfl
  · rw [h]
    decide

/-- Claim C1 as amended: for every protocol implementation and every
intensity in [0,1] the integer level encoded into the buildCommand bytes
lies in [0, maxIntensity]; inputs outside [0,1] are clamped only by the
Coyote frame builders, not by the other protocols. -/
theorem c1_amended_level_bounds (i : ℚ) (st : coyote.CoyoteState) (stv : coyoteV2.V2State)
    (h0 : 0 ≤ i) (h1 : i ≤ 1) :
    (0 ≤ lovense.level i ∧ lovense.level i ≤ lovense.maxIntensity) ∧
    (0 ≤ satisfyer.level i ∧ satisfyer.level i ≤ satisfyer.maxIntensity) ∧
    (0 ≤ wevibe.level i ∧ wevibe.level i ≤ wevibe.maxIntensity) ∧
    (0 ≤ aneros.level i ∧ aneros.level i ≤ aneros.maxIntensity) ∧
    (0 ≤ kiiroo.level i ∧ kiiroo.level i ≤ kiiroo.maxIntensity) ∧
    (0 ≤ svakom.level i ∧ svakom.level i ≤ svakom.maxIntensity) ∧
    (0 ≤ lelo.level i ∧ lelo.level i ≤ lelo.maxIntensity) ∧
    (0 ≤ magicmotion.level i ∧ magicmotion.level i ≤ magicmotion.maxIntensity) ∧
    (0 ≤ mysteryvibe.level i ∧ mysteryvibe.level i ≤ mysteryvibe.maxIntensity) ∧
    (0 ≤ (coyote.buildCommand i 0 st).1.intensityA ∧
      (coyote.buildCommand i 0 st).1.intensityA ≤ coyote.maxIntensity) ∧
    (0 ≤ (coyoteV2.buildCommand i 0 stv).1.intensityA ∧
      (coyoteV2.buildCommand i 0 stv).1.intensityA ≤ coyoteV2.maxIntensity) := by
  refine ⟨?_, ?_, ?_, ?_, ?_, ?_, ?_, ?_, ?_, ?_, ?_⟩
  · simpa [lovense.level, lovense.maxIntensity] using
      jsRound_unit_mul_bounds 20 (by norm_num) i h0 h1
  · simpa [satisfyer.level, satisfyer.maxIntensity] using
      jsRound_unit_mul_bounds 100 (by norm_num) i h0 h1
  · simpa [wevibe.level, wevibe.maxIntensity] using
      jsRound_unit_mul_bounds 15 (by norm_num) i h0 h1
  · simpa [aneros.level, aneros.maxIntensity] using
      jsRound_unit_mul_bounds 255 (by norm_num) i h0 h1
  · simpa [kiiroo.level, kiiroo.maxIntensity] using
      jsRound_unit_mul_bounds 255 (by norm_num) i h0 h1
  · simpa [svakom.level, svakom.maxIntensity] using
      jsRound_unit_mul_bounds 255 (by norm_num) i h0 h1
  · simpa [lelo.level, lelo.maxIntensity] using
      jsRound_unit_mul_bounds 255 (by norm_num) i h0 h1
  · simpa [magicmotion.level, magicmotion.maxIntensity] using
      jsRound_unit_mul_bounds 255 (by norm_num) i h0 h1
  · simpa [mysteryvibe.level, mysteryvibe.maxIntensity] using
      jsRound_unit_mul_bounds 255 (by norm_num) i h0 h1
  · simpa [coyote.buildCommand, coyote.maxIntensity] using
      jsRound_unit_mul_bounds 200 (by norm_num) i h0 h1
  · have hb := jsRound_unit_mul_bounds 1024 (by norm_num) i h0 h1
    simp only [coyoteV2.buildCommand, coyoteV2.maxIntensity]
    constructor
    · simpa using hb.1
    · have := hb.2
      simp only [Int.cast_ofNat] at this ⊢
      simp
      omega

/-- Witness for the amended C1 at intensity 1/2. -/
theorem c1_amended_level_bounds_witness :
    (0 : ℚ) ≤ 1/2 ∧ (1/2 : ℚ) ≤ 1 ∧
    (0 ≤ lovense.level (1/2) ∧ lovense.level (1/2) ≤ lovense.maxIntensity) :=
  ⟨by norm_num, by norm_num,
    (c1_amended_level_bounds (1/2) coyote.initState { intensityA := 0, intensityB := 0 }
      (by norm_num) (by norm_num)).1⟩

/-! ## C2: stop command equivalence and state reset -/

theorem jsRound_zero_mul (m : ℚ) : jsRound (0 * m) = 0 := by
  rw [zero_mul]; exact jsRound_zero

/-- Claim C2 counterexample: coyote.buildStopCommand does not reset the
stored waveforms.  After setting a custom channel-A waveform and issuing
a stop, the stored waveform survives, and a buildCommand(0.5) issued right
after the stop emits the residual custom frequency bytes (10) instead of
the defaults used from a fresh state (100). -/
theorem c2_coyote_residual_waveform_counterexample :
    let w : coyote.Waveform := { freq := [10, 10, 10, 10], intensity := [80, 80, 80, 80] }
    let s1 := (coyote.buildFullCommand { waveformA := some w } coyote.initState).1
    let s2 := (coyote.buildStopCommand s1).1
    s2.waveformA = some w ∧
    w ≠ coyote.defaultWaveform ∧
    (coyote.buildCommand (1/2) 0 s2).2.get? 4 = some 10 ∧
    (coyote.buildCommand (1/2) 0 coyote.initState).2.get? 4 = some 100 := by
  refine ⟨rfl, ?_, ?_, ?_⟩
  · simp only [coyote.defaultWaveform, ne_eq, coyote.Waveform.mk.injEq]
    intro h
    have := h.1
    simp only [List.cons.injEq] at this
    norm_num at this
  · norm_num [coyote.buildCommand, coyote.buildFullCommand, coyote.buildStopCommand,
      coyote.initState, coyote.stateOptions, coyote.buildB0Command, coyote.freqByte,
      coyote.encodeFrequency, jsToUint8, jsTrunc, byteWrap, List.get?]
  · norm_num [coyote.buildCommand, coyote.initState, coyote.stateOptions,
      coyote.buildB0Command, coyote.freqByte, coyote.defaultWaveform,
      coyote.encodeFrequency, jsToUint8, jsTrunc, byteWrap, List.get?]

/-- Claim C2 as amended: for every stateless protocol buildStopCommand is
byte-identical to buildCommand(0, same channel arguments); for the stateful
Coyote protocol buildStopCommand resets both channel intensities to zero
but retains the stored waveforms, so a buildCommand(0.5) issued right after
reflects the new intensity (level 100 on channel A, 0 on channel B) while
still using any previously stored waveform. -/
theorem c2_amended_stop_equivalence :
    (lovense.buildStopCommand = lovense.buildCommand 0) ∧
    (∀ m, satisfyer.buildStopCommand m = satisfyer.buildCommand 0 m) ∧
    (wevibe.buildStopCommand = wevibe.buildCommand 0 none) ∧
    (∀ mi, aneros.buildStopCommand mi = aneros.buildCommand 0 mi) ∧
    (∀ m, kiiroo.buildStopCommand m = kiiroo.buildCommand 0 m) ∧
    (svakom.buildStopCommand = svakom.buildCommand 0) ∧
    (lelo.buildStopCommand = lelo.buildCommand 0 none) ∧
    (magicmotion.buildStopCommand = magicmotion.buildCommand 0) ∧
    (∀ m, mysteryvibe.buildStopCommand m = mysteryvibe.buildCommand 0 m) ∧
    (∀ st : coyote.CoyoteState,
      (coyote.buildStopCommand st).1.intensityA = 0 ∧
      (coyote.buildStopCommand st).1.intensityB = 0 ∧
      (coyote.buildStopCommand st).1.waveformA = st.waveformA ∧
      (coyote.buildStopCommand st).1.waveformB = st.waveformB ∧
      (coyote.buildCommand (1/2) 0 (coyote.buildStopCommand st).1).1.intensityA = 100 ∧
      (coyote.buildCommand (1/2) 0 (coyote.buildStopCommand st).1).1.intensityB = 0) := by
  have hlov : lovense.level 0 = 0 := jsRound_zero_mul _
  have hsat : satisfyer.level 0 = 0 := jsRound_zero_mul _
  have hwev : wevibe.level 0 = 0 := jsRound_zero_mul _
  have hane : aneros.level 0 = 0 := jsRound_zero_mul _
  have hkii : kiiroo.level 0 = 0 := jsRound_zero_mul _
  have hsva : svakom.level 0 = 0 := jsRound_zero_mul _
  have hlel : lelo.level 0 = 0 := jsRound_zero_mul _
  have hmag : magicmotion.level 0 = 0 := jsRound_zero_mul _
  have hmys : mysteryvibe.level 0 = 0 := jsRound_zero_mul _
  have hhalf : jsRound (1/2 * (coyote.maxIntensity : ℚ)) = 100 := by
    norm_num [jsRound, coyote.maxIntensity]
  refine ⟨?_, ?_, ?_, ?_, ?_, ?_, ?_, ?_, ?_, ?_⟩
  · simp only [lovense.buildCommand, lovense.buildStopCommand, hlov]
    rfl
  · intro m; simp [satisfyer.buildStopCommand]
  · simp [wevibe.buildCommand, wevibe.buildStopCommand, hwev]
  · intro mi; simp [aneros.buildCommand, aneros.buildStopCommand, hane, byteWrap]
  · intro m; simp [kiiroo.buildCommand, kiiroo.buildStopCommand, hkii, byteWrap]
  · simp [svakom.buildCommand, svakom.buildStopCommand, hsva, byteWrap]
  · simp [lelo.buildCommand, lelo.buildStopCommand, hlel, byteWrap]
  · simp [magicmotion.buildStopCommand]
  · intro m; simp [mysteryvibe.buildCommand, mysteryvibe.buildStopCommand, hmys, byteWrap]
  · intro st
    refine ⟨rfl, rfl, rfl, rfl, ?_, rfl⟩
    simp only [coyote.buildCommand, coyote.buildStopCommand]
    norm_num [jsRound, coyote.maxIntensity]

/-- Witness for the amended C2: stop equals buildCommand(0) for a concrete
stateless protocol call, via the amended theorem. -/
theorem c2_amended_stop_equivalence_witness :
    satisfyer.buildStopCommand 2 = satisfyer.buildCommand 0 2 :=
  c2_amended_stop_equivalence.2.1 2

/-! ## C3: frequency codec -/

theorem jsRound_mono {a b : ℚ} (h : a ≤ b) : jsRound a ≤ jsRound b := by
  simp only [jsRound]
  exact Int.floor_mono (by linarith)

theorem encodeFrequency_clamp_eq (hz : ℤ) (h1 : 10 ≤ hz) (h2 : hz ≤ 1000) :
    min 1000 (max 10 ((hz : ℤ) : ℚ)) = ((hz : ℤ) : ℚ) := by
  have c1 : (10 : ℚ) ≤ (hz : ℚ) := by exact_mod_cast h1
  have c2 : ((hz : ℤ) : ℚ) ≤ 1000 := by exact_mod_cast h2
  rw [max_eq_right c1, min_eq_right c2]

theorem encodeFrequency_low (hz : ℤ) (h1 : 10 ≤ hz) (h2 : hz ≤ 1000) (hle : hz ≤ 100) :
    coyote.encodeFrequency ((hz : ℤ) : ℚ) = ((hz : ℤ) : ℚ) := by
  simp only [coyote.encodeFrequency, encodeFrequency_clamp_eq hz h1 h2]
  rw [if_pos (by exact_mod_cast hle : ((hz : ℤ) : ℚ) ≤ 100)]

theorem encodeFrequency_mid (hz : ℤ) (hgt : 100 < hz) (hle : hz ≤ 600) :
    coyote.encodeFrequency ((hz : ℤ) : ℚ) =
      (jsRound ((((hz : ℤ) : ℚ) - 100) / 5) : ℚ) + 100 := by
  have h1 : 10 ≤ hz := by omega
  have h2 : hz ≤ 1000 := by omega
  simp only [coyote.encodeFrequency, encodeFrequency_clamp_eq hz h1 h2]
  have hq : (100 : ℚ) < ((hz : ℤ) : ℚ) := by exact_mod_cast hgt
  rw [if_neg (by linarith)]
  rw [if_pos (by exact_mod_cast hle : ((hz : ℤ) : ℚ) ≤ 600)]

theorem encodeFrequency_high (hz : ℤ) (hgt : 600 < hz) (hle : hz ≤ 1000) :
    coyote.encodeFrequency ((hz : ℤ) : ℚ) =
      (jsRound ((((hz : ℤ) : ℚ) - 600) / 10) : ℚ) + 200 := by
  have h1 : 10 ≤ hz := by omega
  simp only [coyote.encodeFrequency, encodeFrequency_clamp_eq hz h1 hle]
  have hq : (600 : ℚ) < ((hz : ℤ) : ℚ) := by exact_mod_cast hgt
  rw [if_neg (by linarith), if_neg (by linarith)]

theorem jsRound_bounds_mid (hz : ℤ) (hgt : 100 < hz) (hle : hz ≤ 600) :
    0 ≤ jsRound ((((hz : ℤ) : ℚ) - 100) / 5) ∧
      jsRound ((((hz : ℤ) : ℚ) - 100) / 5) ≤ 100 := by
  have hq1 : (100 : ℚ) < ((hz : ℤ) : ℚ) := by exact_mod_cast hgt
  have hq2 : ((hz : ℤ) : ℚ) ≤ 600 := by exact_mod_cast hle
  simp only [jsRound]
  constructor
  · exact Int.floor_nonneg.mpr (by linarith)
  · have : ((((hz : ℤ) : ℚ) - 100) / 5 + 1/2) < ((101 : ℤ) : ℚ) := by push_cast; linarith
    have := Int.floor_lt.mpr this
    omega

theorem jsRound_bounds_high (hz : ℤ) (hgt : 600 < hz) (hle : hz ≤ 1000) :
    0 ≤ jsRound ((((hz : ℤ) : ℚ) - 600) / 10) ∧
      jsRound ((((hz : ℤ) : ℚ) - 600) / 10) ≤ 40 := by
  have hq1 : (600 : ℚ) < ((hz : ℤ) : ℚ) := by exact_mod_cast hgt
  have hq2 : ((hz : ℤ) : ℚ) ≤ 1000 := by exact_mod_cast hle
  simp only [jsRound]
  constructor
  · exact Int.floor_nonneg.mpr (by linarith)
  · have : ((((hz : ℤ) : ℚ) - 600) / 10 + 1/2) < ((41 : ℤ) : ℚ) := by push_cast; linarith
    have := Int.floor_lt.mpr this
    omega

theorem decodeFrequency_low (v : ℚ) (h : v ≤ 100) : coyote.decodeFrequency v = v := by
  simp only [coyote.decodeFrequency]
  rw [if_pos h]

theorem decodeFrequency_mid (e : ℤ) (h0 : 0 ≤ e) (h1 : e ≤ 100) :
    coyote.decodeFrequency ((e : ℚ) + 100) = 5 * (e : ℚ) + 100 := by
  rcases eq_or_lt_of_le h0 with he | he
  · subst e
    norm_num [coyote.decodeFrequency]
  · have hq : (0 : ℚ) < (e : ℚ) := by exact_mod_cast he
    have hq1 : (e : ℚ) ≤ 100 := by exact_mod_cast h1
    simp only [coyote.decodeFrequency]
    rw [if_neg (by linarith), if_pos (by linarith)]
    ring

theorem decodeFrequency_high (e : ℤ) (h0 : 0 ≤ e) (h1 : e ≤ 40) :
    coyote.decodeFrequency ((e : ℚ) + 200) = 10 * (e : ℚ) + 600 := by
  rcases eq_or_lt_of_le h0 with he | he
  · subst e
    norm_num [coyote.decodeFrequency]
  · have hq : (0 : ℚ) < (e : ℚ) := by exact_mod_cast he
    have hq1 : (e : ℚ) ≤ 40 := by exact_mod_cast h1
    simp only [coyote.decodeFrequency]
    rw [if_neg (by linarith), if_neg (by linarith)]
    ring

/-- Claim C3: the Coyote frequency encoder maps every integer hz in
[10,1000] to an integer value in [0,240], it is monotone, the decoder
inverts it exactly on [10,100], and the round trip stays within the
segment quantization step: 5 on (100,600] and 10 on (600,1000]. -/
theorem c3_frequency_codec (hz hz2 : ℤ)
    (h1 : 10 ≤ hz) (h2 : hz ≤ 1000) (h3 : hz ≤ hz2) (h4 : hz2 ≤ 1000) :
    (∃ b : ℤ, coyote.encodeFrequency ((hz : ℤ) : ℚ) = (b : ℚ) ∧ 0 ≤ b ∧ b ≤ 240) ∧
    coyote.encodeFrequency ((hz : ℤ) : ℚ) ≤ coyote.encodeFrequency ((hz2 : ℤ) : ℚ) ∧
    (hz ≤ 100 →
      coyote.decodeFrequency (coyote.encodeFrequency ((hz : ℤ) : ℚ)) = ((hz : ℤ) : ℚ)) ∧
    (100 < hz → hz ≤ 600 →
      |coyote.decodeFrequency (coyote.encodeFrequency ((hz : ℤ) : ℚ)) - ((hz : ℤ) : ℚ)| ≤ 5) ∧
    (600 < hz →
      |coyote.decodeFrequency (coyote.encodeFrequency ((hz : ℤ) : ℚ)) - ((hz : ℤ) : ℚ)| ≤ 10) := by
  have h1b : 10 ≤ hz2 := le_trans h1 h3
  refine ⟨?_, ?_, ?_, ?_, ?_⟩
  · -- integrality and range
    by_cases a1 : hz ≤ 100
    · exact ⟨hz, encodeFrequency_low hz h1 h2 a1, by omega, by omega⟩
    · push_neg at a1
      by_cases a2 : hz ≤ 600
      · obtain ⟨e0, e1⟩ := jsRound_bounds_mid hz a1 a2
        refine ⟨jsRound ((((hz : ℤ) : ℚ) - 100) / 5) + 100, ?_, by omega, by omega⟩
        rw [encodeFrequency_mid hz a1 a2]; push_cast; ring
      · push_neg at a2
        obtain ⟨e0, e1⟩ := jsRound_bounds_high hz a2 h2
        refine ⟨jsRound ((((hz : ℤ) : ℚ) - 600) / 10) + 200, ?_, by omega, by omega⟩
        rw [encodeFrequency_high hz a2 h2]; push_cast; ring
  · -- monotonicity
    by_cases a1 : hz ≤ 100
    · by_cases b1 : hz2 ≤ 100
      · rw [encodeFrequency_low hz h1 h2 a1, encodeFrequency_low hz2 h1b h4 b1]
        exact_mod_cast h3
      · push_neg at b1
        have hup : ((hz : ℤ) : ℚ) ≤ 100 := by exact_mod_cast a1
        by_cases b2 : hz2 ≤ 600
        · rw [encodeFrequency_low hz h1 h2 a1, encodeFrequency_mid hz2 b1 b2]
          have he := (jsRound_bounds_mid hz2 b1 b2).1
          have heq : (0 : ℚ) ≤ (jsRound ((((hz2 : ℤ) : ℚ) - 100) / 5) : ℚ) := by
            exact_mod_cast he
          linarith
        · push_neg at b2
          rw [encodeFrequency_low hz h1 h2 a1, encodeFrequency_high hz2 b2 h4]
          have he := (jsRound_bounds_high hz2 b2 h4).1
          have heq : (0 : ℚ) ≤ (jsRound ((((hz2 : ℤ) : ℚ) - 600) / 10) : ℚ) := by
            exact_mod_cast he
          linarith
    · push_neg at a1
      have b1 : 100 < hz2 := lt_of_lt_of_le a1 h3
      by_cases a2 : hz ≤ 600
      · by_cases b2 : hz2 ≤ 600
        · rw [encodeFrequency_mid hz a1 a2, encodeFrequency_mid hz2 b1 b2]
          have hq : ((hz : ℤ) : ℚ) ≤ ((hz2 : ℤ) : ℚ) := by exact_mod_cast h3
          have := jsRound_mono (a := (((hz : ℤ) : ℚ) - 100) / 5)
            (b := (((hz2 : ℤ) : ℚ) - 100) / 5) (by linarith)
          have hc : ((jsRound ((((hz : ℤ) : ℚ) - 100) / 5)) : ℚ) ≤
              ((jsRound ((((hz2 : ℤ) : ℚ) - 100) / 5)) : ℚ) := by exact_mod_cast this
          linarith
        · push_neg at b2
          rw [encodeFrequency_mid hz a1 a2, encodeFrequency_high hz2 b2 h4]
          have he1 := (jsRound_bounds_mid hz a1 a2).2
          have he2 := (jsRound_bounds_high hz2 b2 h4).1
          have hc1 : ((jsRound ((((hz : ℤ) : ℚ) - 100) / 5)) : ℚ) ≤ 100 := by exact_mod_cast he1
          have hc2 : (0 : ℚ) ≤ ((jsRound ((((hz2 : ℤ) : ℚ) - 600) / 10)) : ℚ) := by
            exact_mod_cast he2
          linarith
      · push_neg at a2
        have b2 : 600 < hz2 := lt_of_lt_of_le a2 h3
        rw [encodeFrequency_high hz a2 h2, encodeFrequency_high hz2 b2 h4]
        have hq : ((hz : ℤ) : ℚ) ≤ ((hz2 : ℤ) : ℚ) := by exact_mod_cast h3
        have := jsRound_mono (a := (((hz : ℤ) : ℚ) - 600) / 10)
          (b := (((hz2 : ℤ) : ℚ) - 600) / 10) (by linarith)
        have hc : ((jsRound ((((hz : ℤ) : ℚ) - 600) / 10)) : ℚ) ≤
            ((jsRound ((((hz2 : ℤ) : ℚ) - 600) / 10)) : ℚ) := by exact_mod_cast this
        linarith
  · -- exact round trip on the passthrough segment
    intro hle
    rw [encodeFrequency_low hz h1 h2 hle]
    exact decodeFrequency_low _ (by exact_mod_cast hle)
  · -- middle segment: within quantization step 5
    intro hgt hle
    obtain ⟨e0, e1⟩ := jsRound_bounds_mid hz hgt hle
    rw [encodeFrequency_mid hz hgt hle, decodeFrequency_mid _ e0 e1]
    set q : ℚ := (((hz : ℤ) : ℚ) - 100) / 5 with hq
    have hf1 : ((jsRound q : ℤ) : ℚ) ≤ q + 1/2 := by
      simp only [jsRound]; exact Int.floor_le (q + 1/2)
    have hf2 : q + 1/2 < ((jsRound q : ℤ) : ℚ) + 1 := by
      simp only [jsRound]; exact Int.lt_floor_add_one (q + 1/2)
    rw [abs_le]
    constructor <;> [skip; skip] <;>
      · simp only [hq] at hf1 hf2
        nlinarith [hf1, hf2]
  · -- high segment: within quantization step 10
    intro hgt
    obtain ⟨e0, e1⟩ := jsRound_bounds_high hz hgt h2
    rw [encodeFrequency_high hz hgt h2, decodeFrequency_high _ e0 e1]
    set q : ℚ := (((hz : ℤ) : ℚ) - 600) / 10 with hq
    have hf1 : ((jsRound q : ℤ) : ℚ) ≤ q + 1/2 := by
      simp only [jsRound]; exact Int.floor_le (q + 1/2)
    have hf2 : q + 1/2 < ((jsRound q : ℤ) : ℚ) + 1 := by
      simp only [jsRound]; exact Int.lt_floor_add_one (q + 1/2)
    rw [abs_le]
    constructor <;> [skip; skip] <;>
      · simp only [hq] at hf1 hf2
        nlinarith [hf1, hf2]

/-- Witness for C3 at hz = 50 and hz2 = 650. -/
theorem c3_frequency_codec_witness :
    (10 : ℤ) ≤ 50 ∧ (50 : ℤ) ≤ 1000 ∧ (50 : ℤ) ≤ 650 ∧ (650 : ℤ) ≤ 1000 ∧
    coyote.decodeFrequency (coyote.encodeFrequency ((50 : ℤ) : ℚ)) = ((50 : ℤ) : ℚ) :=
  ⟨by norm_num, by norm_num, by norm_num, by norm_num,
    (c3_frequency_codec 50 650 (by norm_num) (by norm_num) (by norm_num)
      (by norm_num)).2.2.1 (by norm_num)⟩

/-! ## C4: protocol detection priority -/

theorem find?_eq_some_split {α : Type} (p : α → Bool) (l : List α) (d : α)
    (h : l.find? p = some d) :
    p d = true ∧ ∃ l1 l2, l = l1 ++ d :: l2 ∧ ∀ x ∈ l1, p x = false := by
  induction l with
  | nil => simp at h
  | cons a t ih =>
    by_cases ha : p a
    · rw [List.find?_cons_of_pos _ ha] at h
      cases h
      exact ⟨ha, [], t, rfl, by simp⟩
    · rw [List.find?_cons_of_neg _ (by simpa using ha)] at h
      obtain ⟨hd, l1, l2, heq, hall⟩ := ih h
      refine ⟨hd, a :: l1, l2, by rw [heq, List.cons_append], ?_⟩
      intro x hx
      rcases List.mem_cons.mp hx with hx | hx
      · subst hx; simpa using ha
      · exact hall x hx

/-- Claim C4 counterexample: with device name "Lush" and the Satisfyer
service UUID exposed, the Satisfyer candidate (priority position 0) matches
only by shared service UUID, the Lovense candidate (position 1) matches by
name pattern, yet detection returns Satisfyer - so a protocol whose name
pattern matches is NOT preferred over an earlier protocol that only matches
by shared service UUID. -/
theorem c4_priority_counterexample :
    ((registry.PROTOCOLS.get? 0).map (fun d => (d.id, registry.nameMatch d "Lush",
        registry.uuidMatch d ["0000fff0-0000-1000-8000-00805f9b34fb"])))
      = some ("satisfyer", false, true) ∧
    ((registry.PROTOCOLS.get? 1).map (fun d => (d.id, registry.nameMatch d "Lush")))
      = some ("lovense", true) ∧
    ((registry.detectProtocol "Lush" ["0000fff0-0000-1000-8000-00805f9b34fb"]).map
        (fun d => d.id)) = some "satisfyer" := by
  decide

/-- Claim C4 as amended: detection walks the priority-ordered PROTOCOLS
list and the first candidate matching by name pattern or service UUID wins;
within one candidate a name match alone suffices (name is checked before
UUID), but an earlier candidate matching only by UUID beats a later
candidate matching by name; when no candidate matches, detection returns
the explicit unknown-device result none rather than a default protocol. -/
theorem c4_amended_first_match (deviceName : String) (services : List String) :
    (registry.detectProtocol deviceName services = none ↔
      ∀ d ∈ registry.PROTOCOLS,
        registry.defMatches d deviceName (services.map registry.strLower) = false) ∧
    (∀ d, registry.detectProtocol deviceName services = some d →
      registry.defMatches d deviceName (services.map registry.strLower) = true ∧
      ∃ l1 l2, registry.PROTOCOLS = l1 ++ d :: l2 ∧
        ∀ e ∈ l1, registry.defMatches e deviceName (services.map registry.strLower) = false) ∧
    (∀ d, registry.nameMatch d deviceName = true →
      registry.defMatches d deviceName (services.map registry.strLower) = true) := by
  refine ⟨?_, ?_, ?_⟩
  · simp only [registry.detectProtocol, List.find?_eq_none, Bool.not_eq_true]
  · intro d h
    exact find?_eq_some_split _ _ _ h
  · intro d h
    simp [registry.defMatches, h]

/-- Witness for the amended C4: a device matching nothing yields the
explicit unknown-device result. -/
theorem c4_amended_first_match_witness :
    registry.detectProtocol "NoSuchDevice" [] = none :=
  (c4_amended_first_match "NoSuchDevice" []).1.mpr (by decide)

/-! ## C5: session arc invariant -/

/-- Claim C5: for every built-in session arc and every progress t in [0,1],
the returned normalized range satisfies 0 <= min <= max <= 1. -/
theorem c5_arc_range_invariant (a : session.ArcName) (t : ℚ) (h0 : 0 ≤ t) (h1 : t ≤ 1) :
    0 ≤ (session.SESSION_ARCS a t).lo ∧
    (session.SESSION_ARCS a t).lo ≤ (session.SESSION_ARCS a t).hi ∧
    (session.SESSION_ARCS a t).hi ≤ 1 := by
  have hw : (0 : ℚ) < 1 - t * (4/5) := by linarith
  cases a <;> simp only [session.SESSION_ARCS]
  case constant => exact ⟨by norm_num, by norm_num, by norm_num⟩
  case open_up => exact ⟨le_refl 0, h0, h1⟩
  case close_down => exact ⟨le_refl 0, by linarith, by linarith⟩
  case open_down => exact ⟨by linarith, by linarith, le_refl 1⟩
  case close_up => exact ⟨h0, h1, le_refl 1⟩
  case slide_up_wide => exact ⟨by linarith, by linarith, by linarith⟩
  case slide_up => exact ⟨by linarith, by linarith, by linarith⟩
  case slide_up_narrow => exact ⟨by linarith, by linarith, by linarith⟩
  case slide_down_wide => exact ⟨by linarith, by linarith, by linarith⟩
  case slide_down => exact ⟨by linarith, by linarith, by linarith⟩
  case slide_down_narrow => exact ⟨by linarith, by linarith, by linarith⟩
  case focus_high =>
    refine ⟨le_max_left 0 _, ?_, min_le_left 1 _⟩
    apply max_le
    · apply le_min
      · norm_num
      · linarith
    · apply le_min
      · linarith
      · linarith
  case focus_low =>
    refine ⟨le_max_left 0 _, ?_, min_le_left 1 _⟩
    apply max_le
    · apply le_min
      · norm_num
      · linarith
    · apply le_min
      · linarith
      · linarith

/-- Witness for C5 at the slide_up arc and t = 1/2. -/
theorem c5_arc_range_invariant_witness :
    (0 : ℚ) ≤ 1/2 ∧ (1/2 : ℚ) ≤ 1 ∧
    (0 ≤ (session.SESSION_ARCS .slide_up (1/2)).lo ∧
     (session.SESSION_ARCS .slide_up (1/2)).lo ≤ (session.SESSION_ARCS .slide_up (1/2)).hi ∧
     (session.SESSION_ARCS .slide_up (1/2)).hi ≤ 1) :=
  ⟨by norm_num, by norm_num,
    c5_arc_range_invariant .slide_up (1/2) (by norm_num) (by norm_num)⟩

/-! ## C6: category pattern switching -/

theorem pickRandom_mem (arr : List String) (r : ℚ) (h0 : 0 ≤ r) (h1 : r < 1)
    (hne : arr ≠ []) : ∃ x ∈ arr, session.pickRandom arr r = some x := by
  have hlen : 0 < arr.length := List.length_pos.mpr hne
  have hlq : (0 : ℚ) < (arr.length : ℚ) := by exact_mod_cast hlen
  have hnn : (0 : ℚ) ≤ r * (arr.length : ℚ) := mul_nonneg h0 (le_of_lt hlq)
  have hfl0 : 0 ≤ ⌊r * (arr.length : ℚ)⌋ := Int.floor_nonneg.mpr hnn
  have hflt : ⌊r * (arr.length : ℚ)⌋ < (arr.length : ℤ) := by
    apply Int.floor_lt.mpr
    have := mul_lt_mul_of_pos_right h1 hlq
    simpa using this
  have hidx : (⌊r * (arr.length : ℚ)⌋).toNat < arr.length := by omega
  refine ⟨arr.get ⟨_, hidx⟩, List.get_mem _ _ _, ?_⟩
  simp [session.pickRandom, List.get?_eq_get hidx]

theorem randomInRange_bounds (lo hi : ℤ) (hle : lo ≤ hi) (r : ℚ) (h0 : 0 ≤ r) (h1 : r < 1) :
    lo ≤ session.randomInRange lo hi r ∧ session.randomInRange lo hi r ≤ hi := by
  simp only [session.randomInRange]
  have hcast : (lo : ℚ) ≤ (hi : ℚ) := by exact_mod_cast hle
  have hfq : (0 : ℚ) < (hi : ℚ) - (lo : ℚ) + 1 := by linarith
  constructor
  · apply Int.le_floor.mpr
    have := mul_nonneg h0 (le_of_lt hfq)
    linarith
  · have hx : (lo : ℚ) + r * ((hi : ℚ) - (lo : ℚ) + 1) < ((hi + 1 : ℤ) : ℚ) := by
      have := mul_lt_mul_of_pos_right h1 hfq
      push_cast
      linarith
    have := Int.floor_lt.mpr hx
    omega

theorem one_lt_length_of_two_mem {a b : String} {l : List String}
    (ha : a ∈ l) (hb : b ∈ l) (hab : a ≠ b) : 1 < l.length := by
  match l with
  | [] => simp at ha
  | [x] =>
    simp only [List.mem_singleton] at ha hb
    exact absurd (ha.trans hb.symm) hab
  | x :: y :: t => simp [List.length]

/-- Claim C6: when an advance decrements instancesRemaining to zero or
below and the configured pattern set has more than one distinct member,
the category switches currentPattern to a member of the set different from
its prior value, resets the sample index to 0, and redraws
instancesRemaining from [minInstances, maxInstances] - for every possible
outcome of the two random draws. -/
theorem c6_pattern_switch (cat : session.CatState) (sw : session.SwitchSettings)
    (rPick rDraw : ℚ)
    (hp0 : 0 ≤ rPick) (hp1 : rPick < 1) (hd0 : 0 ≤ rDraw) (hd1 : rDraw < 1)
    (hsw : sw.minInstances ≤ sw.maxInstances)
    (hrem : cat.instancesRemaining ≤ 1)
    (hsize : ∃ a ∈ cat.patterns, ∃ b ∈ cat.patterns, a ≠ b) :
    (session.advanceCategory cat sw rPick rDraw).patterns = cat.patterns ∧
    (session.advanceCategory cat sw rPick rDraw).currentPattern ∈ cat.patterns ∧
    (session.advanceCategory cat sw rPick rDraw).currentPattern ≠ cat.currentPattern ∧
    (session.advanceCategory cat sw rPick rDraw).index = 0 ∧
    sw.minInstances ≤ (session.advanceCategory cat sw rPick rDraw).instancesRemaining ∧
    (session.advanceCategory cat sw rPick rDraw).instancesRemaining ≤ sw.maxInstances := by
  obtain ⟨a, ha, b, hb, hab⟩ := hsize
  have hlen : 1 < cat.patterns.length := one_lt_length_of_two_mem ha hb hab
  have hother : ∃ x ∈ cat.patterns, x ≠ cat.currentPattern := by
    by_cases hac : a = cat.currentPattern
    · refine ⟨b, hb, ?_⟩
      rw [← hac]
      exact fun h => hab h.symm
    · exact ⟨a, ha, hac⟩
  obtain ⟨x, hx_mem, hx_ne⟩ := hother
  have hx_filter : x ∈ cat.patterns.filter (fun p => p ≠ cat.currentPattern) := by
    apply List.mem_filter.mpr
    exact ⟨hx_mem, by simpa using hx_ne⟩
  have hfne : cat.patterns.filter (fun p => p ≠ cat.currentPattern) ≠ [] :=
    List.ne_nil_of_mem hx_filter
  obtain ⟨y, hy_mem, hy_eq⟩ :=
    pickRandom_mem (cat.patterns.filter (fun p => p ≠ cat.currentPattern)) rPick hp0 hp1 hfne
  have hy_pat : y ∈ cat.patterns := List.mem_of_mem_filter hy_mem
  have hy_ne : y ≠ cat.currentPattern := by
    have := List.of_mem_filter hy_mem
    simpa using this
  have hflen : 0 < (cat.patterns.filter (fun p => p ≠ cat.currentPattern)).length :=
    List.length_pos.mpr hfne
  have hstep : session.advanceCategory cat sw rPick rDraw =
      { patterns := cat.patterns, currentPattern := y, index := 0,
        instancesRemaining := session.randomInRange sw.minInstances sw.maxInstances rDraw } := by
    simp only [session.advanceCategory]
    rw [if_pos ⟨by omega, hlen⟩, if_pos hflen, hy_eq]
    rfl
  obtain ⟨hr1, hr2⟩ := randomInRange_bounds sw.minInstances sw.maxInstances hsw rDraw hd0 hd1
  rw [hstep]
  exact ⟨rfl, hy_pat, hy_ne, rfl, hr1, hr2⟩

/-- Witness for C6 at a concrete two-pattern category with draws 0. -/
theorem c6_pattern_switch_witness :
    let cat : session.CatState :=
      { patterns := ["climb", "wave"], currentPattern := "climb", index := 5,
        instancesRemaining := 1 }
    let sw : session.SwitchSettings := { minInstances := 4, maxInstances := 12 }
    (session.advanceCategory cat sw 0 0).currentPattern ∈ cat.patterns ∧
    (session.advanceCategory cat sw 0 0).currentPattern ≠ cat.currentPattern ∧
    (session.advanceCategory cat sw 0 0).index = 0 ∧
    sw.minInstances ≤ (session.advanceCategory cat sw 0 0).instancesRemaining ∧
    (session.advanceCategory cat sw 0 0).instancesRemaining ≤ sw.maxInstances := by
  have h := c6_pattern_switch
    { patterns := ["climb", "wave"], currentPattern := "climb", index := 5,
      instancesRemaining := 1 }
    { minInstances := 4, maxInstances := 12 } 0 0
    (by norm_num) (by norm_num) (by norm_num) (by norm_num)
    (by norm_num) (by norm_num)
    ⟨"climb", by simp, "wave", by simp, by simp⟩
  exact ⟨h.2.1, h.2.2.1, h.2.2.2.1, h.2.2.2.2.1, h.2.2.2.2.2⟩

/-! ## C7: GATT connect retry -/

theorem connectLoop_eval (outcome : ℕ → Bool) :
    connectLoop outcome =
      if outcome 1 then some 1 else if outcome 2 then some 2
      else if outcome 3 then some 3 else none := by
  cases h1 : outcome 1 <;> cases h2 : outcome 2 <;> cases h3 : outcome 3 <;>
    simp [connectLoop, connectFrom, h1, h2, h3]

/-- Claim C7: the GATT connect loop makes at most 3 attempts; a returned
success comes from an attempt k between 1 and 3 whose earlier attempts all
failed; the loop propagates an error (none) exactly when attempts 1, 2 and
3 all fail; and a sequence that fails twice then succeeds on the 3rd
attempt propagates no error. -/
theorem c7_connect_retry (outcome : ℕ → Bool) :
    (∀ k, connectLoop outcome = some k →
      1 ≤ k ∧ k ≤ 3 ∧ outcome k = true ∧ ∀ j, 1 ≤ j → j < k → outcome j = false) ∧
    (connectLoop outcome = none ↔
      outcome 1 = false ∧ outcome 2 = false ∧ outcome 3 = false) ∧
    (outcome 1 = false → outcome 2 = false → outcome 3 = true →
      connectLoop outcome = some 3) := by
  have he := connectLoop_eval outcome
  refine ⟨?_, ?_, ?_⟩
  · intro k hk
    rw [he] at hk
    by_cases h1 : outcome 1
    · simp [h1] at hk
      subst hk
      exact ⟨le_refl 1, by omega, h1, fun j hj1 hj2 => by omega⟩
    · by_cases h2 : outcome 2
      · simp [h1, h2] at hk
        subst hk
        refine ⟨by omega, by omega, h2, ?_⟩
        intro j hj1 hj2
        have : j = 1 := by omega
        subst this
        simpa using h1
      · by_cases h3 : outcome 3
        · simp [h1, h2, h3] at hk
          subst hk
          refine ⟨by omega, by omega, h3, ?_⟩
          intro j hj1 hj2
          interval_cases j
          · simpa using h1
          · simpa using h2
        · simp [h1, h2, h3] at hk
  · rw [he]
    constructor
    · intro hn
      by_cases h1 : outcome 1
      · simp [h1] at hn
      · by_cases h2 : outcome 2
        · simp [h1, h2] at hn
        · by_cases h3 : outcome 3
          · simp [h1, h2, h3] at hn
          · exact ⟨by simpa using h1, by simpa using h2, by simpa using h3⟩
    · rintro ⟨h1, h2, h3⟩
      simp [h1, h2, h3]
  · intro h1 h2 h3
    rw [he]
    simp [h1, h2, h3]

/-- Witness for C7: two failures then a success yields attempt 3 and no
propagated error. -/
theorem c7_connect_retry_witness :
    connectLoop (fun n => decide (n = 3)) = some 3 :=
  (c7_connect_retry (fun n => decide (n = 3))).2.2 (by decide) (by decide) (by decide)

/-! ## C8: V2 send serialization -/

theorem sendStep_inv (s : coyoteV2.SendState) (lr : Option ℚ) (e : coyoteV2.SendEv)
    (h : coyoteV2.sendInv s lr) :
    coyoteV2.sendInv (coyoteV2.sendStep s e)
      (match e with | .send i => some i | .complete => lr) := by
  obtain ⟨hlen, hquiet, hbusy⟩ := h
  cases e with
  | send i =>
    by_cases hs : s.sending
    · refine ⟨?_, ?_, ?_⟩ <;> simp only [coyoteV2.sendStep, hs, if_true]
      · simpa [hs] using hlen
      · simp [hs]
      · intro _
        refine ⟨fun p hp => ?_, fun hnone => ?_⟩
        · simp only at hp
          cases hp
          rfl
        · simp at hnone
    · have hsf : s.sending = false := by simpa using hs
      have hnil : s.inFlight = [] := by
        rw [hsf] at hlen
        simpa using hlen
      obtain ⟨hpend, _⟩ := hquiet hsf
      refine ⟨?_, ?_, ?_⟩ <;> simp only [coyoteV2.sendStep, hsf, Bool.false_eq_true, if_false]
      · simp [hnil]
      · simp
      · intro _
        refine ⟨fun p hp => ?_, fun _ => ⟨i, by simp [hnil], rfl⟩⟩
        rw [hpend] at hp
        cases hp
  | complete =>
    cases hf : s.inFlight with
    | nil =>
      simp only [coyoteV2.sendStep, hf]
      exact ⟨by simpa [hf] using hlen, hquiet, hbusy⟩
    | cons a rest =>
      have hs : s.sending = true := by
        by_contra hns
        have hsf : s.sending = false := by simpa using hns
        rw [hsf] at hlen
        simp [hf] at hlen
      have hrest : rest = [] := by
        rw [hs] at hlen
        rw [hf] at hlen
        simpa using hlen
      subst hrest
      cases hp : s.pending with
      | none =>
        obtain ⟨a2, hif, hlr⟩ := (hbusy hs).2 hp
        have ha : a = a2 := by
          rw [hf] at hif
          cases hif
          rfl
        subst ha
        refine ⟨?_, ?_, ?_⟩ <;> simp only [coyoteV2.sendStep, hf, hp]
        · simp
        · intro _
          constructor
          · trivial
          · rw [hlr]
            simp
        · intro hcontra
          simp at hcontra
      | some p =>
        have hlr := (hbusy hs).1 p hp
        refine ⟨?_, ?_, ?_⟩ <;> simp only [coyoteV2.sendStep, hf, hp]
        · simp
        · intro hcontra
          simp at hcontra
        · intro _
          constructor
          · intro q hq
            cases hq
          · intro _
            exact ⟨p, by simp, hlr⟩

theorem sendRun_foldl_inv (evs : List coyoteV2.SendEv) :
    ∀ (s : coyoteV2.SendState) (lr : Option ℚ), coyoteV2.sendInv s lr →
      coyoteV2.sendInv (evs.foldl coyoteV2.sendStep s)
        (evs.foldl (fun acc e => match e with | .send i => some i | .complete => acc) lr) := by
  induction evs with
  | nil => intro s lr h; simpa using h
  | cons e t ih =>
    intro s lr h
    simp only [List.foldl_cons]
    exact ih _ _ (sendStep_inv s lr e h)

theorem sendRun_inv (evs : List coyoteV2.SendEv) :
    coyoteV2.sendInv (coyoteV2.sendRun evs) (coyoteV2.lastRequested evs) := by
  apply sendRun_foldl_inv
  refine ⟨by simp [coyoteV2.sendInit], by simp [coyoteV2.sendInit], ?_⟩
  intro hcontra
  simp [coyoteV2.sendInit] at hcontra

/-- Claim C8: in every interleaving of V2 send requests and write
completions there is never more than one in-flight BLE write; a send
issued while a write is in flight only replaces the single pending
intensity; a pending value is dispatched the moment the in-flight write
completes; and once the gate is quiescent the last transmitted intensity
is the most recently requested one. -/
theorem c8_v2_send_gate (evs : List coyoteV2.SendEv) :
    (coyoteV2.sendRun evs).inFlight.length ≤ 1 ∧
    (∀ i, (coyoteV2.sendRun evs).sending = true →
      coyoteV2.sendStep (coyoteV2.sendRun evs) (.send i) =
        { coyoteV2.sendRun evs with pending := some i }) ∧
    (∀ a rest p, (coyoteV2.sendRun evs).inFlight = a :: rest →
      (coyoteV2.sendRun evs).pending = some p →
      (coyoteV2.sendStep (coyoteV2.sendRun evs) .complete).writes
          = (coyoteV2.sendRun evs).writes ++ [a] ∧
      (coyoteV2.sendStep (coyoteV2.sendRun evs) .complete).inFlight = rest ++ [p] ∧
      (coyoteV2.sendStep (coyoteV2.sendRun evs) .complete).pending = none) ∧
    ((coyoteV2.sendRun evs).sending = false →
      (coyoteV2.sendRun evs).writes.getLast? = coyoteV2.lastRequested evs) := by
  obtain ⟨hlen, hquiet, _⟩ := sendRun_inv evs
  refine ⟨?_, ?_, ?_, ?_⟩
  · rw [hlen]
    split <;> omega
  · intro i hs
    simp [coyoteV2.sendStep, hs]
  · intro a rest p hf hp
    refine ⟨?_, ?_, ?_⟩ <;> simp [coyoteV2.sendStep, hf, hp]
  · intro hs
    exact (hquiet hs).2

/-- Witness for C8: a trace with an overlapping second send converges to
the most recent intensity once the writes complete. -/
theorem c8_v2_send_gate_witness :
    (coyoteV2.sendRun [.send 5, .send 7, .complete, .complete]).writes.getLast?
        = coyoteV2.lastRequested [.send 5, .send 7, .complete, .complete] ∧
    coyoteV2.lastRequested [.send 5, .send 7, .complete, .complete] = some 7 :=
  ⟨(c8_v2_send_gate [.send 5, .send 7, .complete, .complete]).2.2.2 rfl,
    rfl⟩

/-! ## C9: unknown-device fallback -/

/-- Claim C9: when a connected device is not recognized as an e-stim device
and protocol detection returns the explicit unknown-device result, the
connection manager does not fail: it silently selects the Lovense protocol. -/
theorem c9_unknown_falls_back_to_lovense (deviceName : String) (services : List String)
    (hcoy : isCoyote deviceName = false)
    (hdet : registry.detectProtocol deviceName services = none) :
    chooseProtocolId deviceName services = "lovense" := by
  simp [chooseProtocolId, hcoy, hdet]

/-- Witness for C9 at a concrete unrecognized device name. -/
theorem c9_unknown_falls_back_to_lovense_witness :
    chooseProtocolId "MagicWand X" [] = "lovense" :=
  c9_unknown_falls_back_to_lovense "MagicWand X" [] (by decide) (by decide)
